import Mathlib

/-!
Shallow embedding of the Sanitized-Images Electron main process
(src/frontend/electron/main.ts), its preload bridge
(src/frontend/electron/preload.ts) and the renderer preview logic
(src/frontend/src/renderer/App.tsx).

External effects (the python sanitizer subprocess, the macOS
screencapture tool, the save dialog, the OS global-shortcut table, the
filesystem) are modelled as explicit environment records; each IPC
handler becomes a pure Lean function from its input and environment to
its response plus a record of the side effects it performed.
-/

namespace SanImg

/-- JavaScript truthiness fallback on strings: s or the fallback when s is empty
(models the JS expression s two-pipes fallback). -/
def jsOr (s fallback : String) : String :=
  if s = "" then fallback else s

/-- Models the JS builtin startsWith on strings. -/
def jsStartsWith (s pat : String) : Bool :=
  pat.data.isPrefixOf s.data

/-- List-of-characters substring occurrence test, used to model the JS
String.prototype.includes builtin and regex alternation matching. -/
def charsIncl (pat : List Char) : List Char → Bool
  | [] => pat.isEmpty
  | c :: rest => pat.isPrefixOf (c :: rest) || charsIncl pat rest

/-- Models the JS builtin s.includes(pat). -/
def jsIncludes (s pat : String) : Bool :=
  charsIncl pat.data s.data

/-- Models the JS builtin toLowerCase (ASCII case folding). -/
def jsToLower (s : String) : String :=
  ⟨s.data.map Char.toLower⟩

/-- JS whitespace recognized by String.prototype.trim. -/
def isJsWS (c : Char) : Bool :=
  c = ' ' || c = '\t' || c = '\n' || c = '\r' || c = '\x0b' || c = '\x0c'

/-- Models the JS builtin trim: strips leading and trailing whitespace. -/
def jsTrim (s : String) : String :=
  ⟨((s.data.dropWhile isJsWS).reverse.dropWhile isJsWS).reverse⟩

/- ---------------------------------------------------------------
   Data model (main.ts lines 14-33)
   --------------------------------------------------------------- -/

structure HotkeyModifiers where
  shift : Bool
  alt : Bool
  command : Bool
deriving DecidableEq, Repr

structure ModBinding where
  modifiers : HotkeyModifiers
deriving DecidableEq, Repr

structure ToggleBinding where
  accelerator : String
deriving DecidableEq, Repr

structure HotkeySettings where
  region : ModBinding
  full : ModBinding
  toggle : ToggleBinding
deriving DecidableEq, Repr

/-- defaultSettings from main.ts lines 26-30. -/
def defaultSettings : HotkeySettings :=
  { region := ⟨⟨false, false, false⟩⟩
  , full := ⟨⟨false, false, false⟩⟩
  , toggle := ⟨"F8"⟩ }

/- ---------------------------------------------------------------
   AcceleratorBuilder (main.ts acceleratorFor, lines 68-75)
   --------------------------------------------------------------- -/

/-- Models Array.prototype.join with separator "+". -/
def joinPlus : List String → String
  | [] => ""
  | [a] => a
  | a :: b :: rest => a ++ "+" ++ joinPlus (b :: rest)

/-- The parts array built by acceleratorFor before the join.
darwin models process.platform being the macOS value. -/
def acceleratorParts (darwin : Bool) (baseKey : String) (mods : HotkeyModifiers) : List String :=
  let parts : List String := ["Control"]
  let parts := if darwin && mods.command then parts ++ ["Command"] else parts
  let parts := if mods.shift then parts ++ ["Shift"] else parts
  let parts := if mods.alt then parts ++ [if darwin then "Option" else "Alt"] else parts
  parts ++ [baseKey]

/-- acceleratorFor from main.ts lines 68-75. -/
def acceleratorFor (darwin : Bool) (baseKey : String) (mods : HotkeyModifiers) : String :=
  joinPlus (acceleratorParts darwin baseKey mods)

/- ---------------------------------------------------------------
   SanitizeGate (main.ts sanitizeInMain, lines 77-96, and the
   sanitizeDataUrl IPC handler, lines 267-295)
   --------------------------------------------------------------- -/

/-- Outcome of one execFile invocation of the python sanitizer process:
err is true when the callback receives a non-null error (nonzero exit or
spawn failure), errMessage its message, stdout and stderr the captured
streams. -/
structure ProcOutcome where
  err : Bool
  errMessage : String
  stdout : String
  stderr : String
deriving DecidableEq, Repr

instance : DecidableEq (Except String String) := fun a b =>
  match a, b with
  | .ok x, .ok y => if h : x = y then isTrue (by rw [h]) else isFalse (by simp [h])
  | .error x, .error y => if h : x = y then isTrue (by rw [h]) else isFalse (by simp [h])
  | .ok _, .error _ => isFalse (by simp)
  | .error _, .ok _ => isFalse (by simp)

/-- Result of sanitizeInMain together with the number of sanitizer
process invocations the call performed. -/
structure SanitizeRun where
  calls : Nat
  result : Except String String
deriving DecidableEq, Repr

/-- sanitizeInMain from main.ts lines 77-96: one execFile invocation; on
error reject with stderr when non-empty, else the error message; an empty
stdout or a stdout not starting with the image data-URL marker throws the
corresponding fixed message; otherwise the stdout string is returned. -/
def sanitizeInMainRun (p : ProcOutcome) : SanitizeRun :=
  if p.err then
    ⟨1, .error (jsOr p.stderr p.errMessage)⟩
  else
    let out := p.stdout
    if out = "" then ⟨1, .error "Sanitizer returned empty output"⟩
    else if !(jsStartsWith out "data:image/") then ⟨1, .error "Invalid sanitizer output"⟩
    else ⟨1, .ok out⟩

/-- The result component of sanitizeInMain. -/
def sanitizeInMain (p : ProcOutcome) : Except String String :=
  (sanitizeInMainRun p).result

/-- IPC response shape for the sanitizeDataUrl handler. -/
structure SanitizeResp where
  ok : Bool
  dataUrl : Option String
  error : Option String
deriving DecidableEq, Repr

/-- The sanitizeDataUrl IPC handler (main.ts lines 267-295): same
subprocess logic as sanitizeInMain, but failures are returned as an
ok-false response instead of a thrown error; the catch branch applies the
fallback message when the thrown message is empty. -/
def sanitizeDataUrlHandler (p : ProcOutcome) : SanitizeResp :=
  if p.err then
    ⟨false, none, some (jsOr (jsOr p.stderr p.errMessage) "sanitize failed")⟩
  else
    let sanitized := p.stdout
    if sanitized = "" then ⟨false, none, some "Sanitizer returned empty output"⟩
    else if !(jsStartsWith sanitized "data:image/") then ⟨false, none, some "Invalid sanitizer output"⟩
    else ⟨true, some sanitized, none⟩

/- ---------------------------------------------------------------
   Data-URL parsing used by saveImage / saveImageZip
   (the regex at main.ts lines 331 and 378)
   --------------------------------------------------------------- -/

/-- Is c a JS regex line terminator (excluded by the dot in the pattern). -/
def isLineTerm (c : Char) : Bool :=
  c = '\n' || c = '\r' || c = '\u2028' || c = '\u2029'

/-- Models the JS regex match of data colon mime semicolon base64 comma
payload anchored at both ends: mime is the non-empty run up to the first
semicolon, then the literal base64 marker, then a non-empty payload
containing no line terminator. Returns (mime, payload). -/
def parseDataUrl (s : String) : Option (String × String) :=
  let l := s.data
  if "data:".data.isPrefixOf l then
    let rest := l.drop 5
    let mime := rest.takeWhile (fun c => c ≠ ';')
    let after := rest.drop mime.length
    if mime.length > 0 && ";base64,".data.isPrefixOf after then
      let dat := after.drop 8
      if dat.length > 0 && dat.all (fun c => !(isLineTerm c)) then
        some (⟨mime⟩, ⟨dat⟩)
      else none
    else none
  else none

/- ---------------------------------------------------------------
   OutputSinks: copyImage (main.ts lines 298-311), saveImage
   (lines 323-367), saveImageZip (lines 370-427)
   --------------------------------------------------------------- -/

/-- Response of the copyImage handler. -/
structure CopyResp where
  ok : Bool
  error : Option String
deriving DecidableEq, Repr

/-- Side effects of copyImage: the data URL handed to
nativeImage.createFromDataURL and written to the clipboard, if any. -/
structure CopyEffects where
  clipboard : Option String
deriving DecidableEq, Repr

/-- The copyImage IPC handler (main.ts lines 298-311): sanitize first; on
failure return the error (with the fixed fallback when the thrown message
is empty) and write nothing; on success write the image decoded from the
sanitized data URL to the clipboard. -/
def copyImage (p : ProcOutcome) (_dataUrl : String) : CopyResp × CopyEffects :=
  match sanitizeInMain p with
  | .error e => (⟨false, some (jsOr e "Failed to copy image to clipboard")⟩, ⟨none⟩)
  | .ok sanitized => (⟨true, none⟩, ⟨some sanitized⟩)

/-- Environment for a save handler: sanitizer process outcome, the save
dialog result (none models canceled or an empty file path), the hex string
from randomBytes, and the wall-clock time at save. -/
structure SaveEnv where
  proc : ProcOutcome
  dialog : Option String
  rand : String
  now : Nat
deriving Repr

/-- Fixed metadata epoch 2000-01-01T00:00:00Z as Unix seconds
(main.ts lines 355, 408, 415). -/
def epoch2000 : Nat := 946684800

/-- Response of saveImage / saveImageZip. -/
structure SaveResp where
  ok : Bool
  canceled : Bool
  path : Option String
  error : Option String
deriving DecidableEq, Repr

/-- The destination file as it exists after the handler finishes:
path, decoded content bytes, modification time and permission bits after
the utimes / chmod normalization. -/
structure FileWrite where
  path : String
  bytes : List Nat
  mtime : Nat
  mode : Nat
deriving DecidableEq, Repr

/-- Side effects of saveImage. -/
structure SaveEffects where
  written : Option FileWrite
deriving DecidableEq, Repr

/-- File extension choice from the sanitized mime (main.ts line 336). -/
def extForMime (mime : String) : String :=
  if jsIncludes mime "jpeg" || jsIncludes mime "jpg" then "jpg"
  else if jsIncludes mime "png" then "png" else "png"

/-- The saveImage IPC handler (main.ts lines 323-367). decode models the
Buffer.from base64 decoder of the runtime library. Paths in order: input
without the image data-URL marker is rejected; sanitize failure aborts;
a sanitized output the data-URL regex cannot match is Malformed; dialog
cancel returns a canceled response; otherwise the decoded sanitized
payload is written and the file metadata normalized to the fixed epoch
and mode 644 octal. -/
def saveImage (decode : String → List Nat) (env : SaveEnv) (dataUrl : String) :
    SaveResp × SaveEffects :=
  if !(jsStartsWith dataUrl "data:image/") then
    (⟨false, false, none, some "Invalid image data"⟩, ⟨none⟩)
  else
    match sanitizeInMain env.proc with
    | .error e => (⟨false, false, none, some (jsOr e "Failed to save image")⟩, ⟨none⟩)
    | .ok sanitized =>
      match parseDataUrl sanitized with
      | none => (⟨false, false, none, some "Malformed data URL"⟩, ⟨none⟩)
      | some (mimeRaw, b64) =>
        let mime := jsToLower mimeRaw
        let _ext := extForMime mime
        match env.dialog with
        | none => (⟨false, true, none, none⟩, ⟨none⟩)
        | some filePath =>
          (⟨true, false, some filePath, none⟩,
           ⟨some ⟨filePath, decode b64, epoch2000, 0o644⟩⟩)

/-- The zip archive written by saveImageZip: outer path and normalized
metadata, plus the single entry with its randomized name, decoded content
and fixed entry mtime. -/
structure ZipWrite where
  path : String
  entryName : String
  entryBytes : List Nat
  entryMtime : Nat
  mtime : Nat
  mode : Nat
deriving DecidableEq, Repr

/-- Side effects of saveImageZip. -/
structure ZipEffects where
  written : Option ZipWrite
deriving DecidableEq, Repr

/-- The saveImageZip IPC handler (main.ts lines 370-427): same gate and
prompt semantics as saveImage; the decoded sanitized payload becomes the
single zip entry named img underscore rand dot ext with the fixed entry
mtime, and the outer file receives the same epoch / mode normalization. -/
def saveImageZip (decode : String → List Nat) (env : SaveEnv) (dataUrl : String) :
    SaveResp × ZipEffects :=
  if !(jsStartsWith dataUrl "data:image/") then
    (⟨false, false, none, some "Invalid image data"⟩, ⟨none⟩)
  else
    match sanitizeInMain env.proc with
    | .error e => (⟨false, false, none, some (jsOr e "Failed to save ZIP")⟩, ⟨none⟩)
    | .ok sanitized =>
      match parseDataUrl sanitized with
      | none => (⟨false, false, none, some "Malformed data URL"⟩, ⟨none⟩)
      | some (mimeRaw, b64) =>
        let mime := jsToLower mimeRaw
        let ext := extForMime mime
        let innerName := "img_" ++ env.rand ++ "." ++ ext
        match env.dialog with
        | none => (⟨false, true, none, none⟩, ⟨none⟩)
        | some filePath =>
          (⟨true, false, some filePath, none⟩,
           ⟨some ⟨filePath, innerName, decode b64, epoch2000, epoch2000, 0o644⟩⟩)

/- ---------------------------------------------------------------
   CapturePipeline: the captureRegion handler (main.ts lines 229-265)
   --------------------------------------------------------------- -/

/-- The cancellation classifier at main.ts line 258: case-insensitive
match of canceled, cancelled, 65 or 255 anywhere in the message. -/
def cancelPattern (msg : String) : Bool :=
  let l := jsToLower msg
  jsIncludes l "canceled" || jsIncludes l "cancelled" ||
    jsIncludes l "65" || jsIncludes l "255"

/-- Environment for one captureRegion call: the platform, the
screencapture invocation outcome (some message when execFile reports an
error), the content the tool wrote to the temporary output file (none
when it wrote nothing), and the message readFile rejects with when the
file is absent. -/
structure RegionEnv where
  darwin : Bool
  spawnErrMsg : Option String
  toolWrote : Option String
  readErrMsg : String
deriving Repr

/-- Response of the captureRegion handler. -/
structure CaptureResp where
  ok : Bool
  dataUrl : Option String
  error : Option String
deriving DecidableEq, Repr

/-- Outcome of captureRegion: the IPC response plus whether the temporary
output file still exists when the handler returns. -/
structure RegionOut where
  resp : CaptureResp
  tmpFileExists : Bool
deriving DecidableEq, Repr

/-- The captureRegion IPC handler (main.ts lines 229-265). b64 models the
base64 encoder of Buffer.toString. Non-darwin is rejected up front. When
execFile reports an error the catch block classifies its message: a
cancellation-pattern match yields the friendly canceled response, any
other message is surfaced as the error; in both cases the unlink at line
251 was never reached, so the temporary file survives exactly when the
tool wrote it. On a clean exit the file is read (a missing file makes
readFile reject into the same catch block) and then unlinked. -/
def captureRegion (b64 : String → String) (env : RegionEnv) : RegionOut :=
  if !env.darwin then
    ⟨⟨false, none, some "Region capture not implemented on this platform yet"⟩, false⟩
  else
    match env.spawnErrMsg with
    | some msg =>
      if cancelPattern msg then
        ⟨⟨false, none, some "Selection canceled"⟩, env.toolWrote.isSome⟩
      else
        ⟨⟨false, none, some msg⟩, env.toolWrote.isSome⟩
    | none =>
      match env.toolWrote with
      | some bytes =>
        ⟨⟨true, some ("data:image/png;base64," ++ b64 bytes), none⟩, false⟩
      | none =>
        if cancelPattern env.readErrMsg then
          ⟨⟨false, none, some "Selection canceled"⟩, false⟩
        else
          ⟨⟨false, none, some env.readErrMsg⟩, false⟩

/-- The renderer-side classification in doCaptureRegion (App.tsx lines
64-69): an error whose message matches canceled or cancelled
case-insensitively is swallowed, everything else becomes the visible
error. The preload bridge rethrows resp.error (with a fallback) whenever
resp.ok is false (preload.ts lines 23-27). -/
def surfacedRegionError (out : RegionOut) : Option String :=
  if out.resp.ok then none
  else
    let msg := jsOr (out.resp.error.getD "") "Region capture failed"
    let l := jsToLower msg
    if jsIncludes l "canceled" || jsIncludes l "cancelled" then none
    else some msg

/- ---------------------------------------------------------------
   SettingsStore (main.ts loadSettings lines 40-60, saveSettings
   lines 62-66) and ShortcutManager (registerShortcuts lines 165-197,
   setHotkeySettings handler lines 434-449)
   --------------------------------------------------------------- -/

/-- Truthiness of the three modifier fields of an untyped modifiers
object: each field holds the result of JS double-negation on the raw
value, with a missing field collapsing to false. -/
structure RawMods where
  shift : Bool
  alt : Bool
  command : Bool
deriving DecidableEq, Repr

/-- An untyped parsed settings document (the JSON.parse result): region
and full modifier objects may be missing (optional-chaining then yields
undefined and every truthiness test is false); toggleAccel is the string
conversion of the accelerator value when that value is truthy, none when
it is missing or falsy. -/
structure RawDoc where
  region : Option RawMods
  full : Option RawMods
  toggleAccel : Option String
deriving DecidableEq, Repr

/-- The norm helper of loadSettings / setHotkeySettings: double-negation
of each field, with a missing object giving all false. -/
def normMods : Option RawMods → HotkeyModifiers
  | none => ⟨false, false, false⟩
  | some m => ⟨m.shift, m.alt, m.command⟩

/-- The accelerator normalization shared by loadSettings (line 51 and 55)
and the setHotkeySettings handler (line 443): string-convert with empty
fallback, trim, then fall back to the default accelerator when empty. -/
def normAccel (raw : Option String) : String :=
  jsOr (jsTrim (raw.getD "")) defaultSettings.toggle.accelerator

/-- loadSettings (main.ts lines 40-60): a missing or unreadable file and
an unparseable document both throw into the catch branch (doc = none) and
yield the defaults; otherwise each field is normalized. -/
def loadSettings : Option RawDoc → HotkeySettings
  | none => defaultSettings
  | some d =>
    { region := ⟨normMods d.region⟩
    , full := ⟨normMods d.full⟩
    , toggle := ⟨normAccel d.toggleAccel⟩ }

/-- An untyped setHotkeySettings request body, with the same raw shape as
a parsed settings document. -/
def Incoming := RawDoc

/-- Normalization of an incoming settings request (main.ts lines
435-444). -/
def normalizeIncoming (inc : Incoming) : HotkeySettings :=
  { region := ⟨normMods inc.region⟩
  , full := ⟨normMods inc.full⟩
  , toggle := ⟨normAccel inc.toggleAccel⟩ }

/-- OS-side registration environment: platform and which accelerators the
OS grants (false models an accelerator already claimed elsewhere). -/
structure ShortcutEnv where
  darwin : Bool
  canRegister : String → Bool

/-- Mutable main-process state touched by the settings and shortcut
code: the held settings, the toggle-registered flag, the set of
accelerators currently registered in the global-shortcut table, and the
persisted settings document on disk. -/
structure MainState where
  currentSettings : HotkeySettings
  toggleRegistered : Bool
  registry : List String
  disk : Option HotkeySettings

/-- registerShortcuts (main.ts lines 165-197): unregister everything,
rebuild the three accelerators from the current settings, register each
in order (a register call fails when the OS refuses the accelerator or
it is already present in the table); region / full failures only append
a console warning, the toggle outcome is stored in toggleRegistered.
Returns the new state and the warnings emitted. -/
def registerShortcuts (env : ShortcutEnv) (st : MainState) : MainState × List String :=
  let registry0 : List String := []
  let regionAccel := acceleratorFor env.darwin "4" st.currentSettings.region.modifiers
  let fullAccel := acceleratorFor env.darwin "3" st.currentSettings.full.modifiers
  let toggleAccel := jsOr st.currentSettings.toggle.accelerator defaultSettings.toggle.accelerator
  let okRegion := env.canRegister regionAccel && !(decide (regionAccel ∈ registry0))
  let registry1 := if okRegion then registry0 ++ [regionAccel] else registry0
  let okFull := env.canRegister fullAccel && !(decide (fullAccel ∈ registry1))
  let registry2 := if okFull then registry1 ++ [fullAccel] else registry1
  let okToggle := env.canRegister toggleAccel && !(decide (toggleAccel ∈ registry2))
  let registry3 := if okToggle then registry2 ++ [toggleAccel] else registry2
  let warns :=
    (if okRegion then [] else ["Failed to register hotkey for region: " ++ regionAccel]) ++
    (if okFull then [] else ["Failed to register hotkey for full: " ++ fullAccel]) ++
    (if okToggle then [] else ["Failed to register toggle hotkey: " ++ toggleAccel])
  ({ st with registry := registry3, toggleRegistered := okToggle }, warns)

/-- Response of the setHotkeySettings handler. -/
structure SetResp where
  ok : Bool
  registered : Bool
deriving DecidableEq, Repr

/-- The setHotkeySettings IPC handler (main.ts lines 434-449): normalize
the incoming document, replace the held settings, rewrite the persisted
document in full, re-register the whole shortcut set, and report the
toggle registration outcome. -/
def setHotkeySettings (env : ShortcutEnv) (st : MainState) (inc : Incoming) :
    MainState × SetResp × List String :=
  let next := normalizeIncoming inc
  let st1 := { st with currentSettings := next, disk := some next }
  let r := registerShortcuts env st1
  (r.1, ⟨true, r.1.toggleRegistered⟩, r.2)

/-- The getHotkeySettings IPC handler (main.ts lines 430-432). -/
def getHotkeySettings (st : MainState) : HotkeySettings :=
  st.currentSettings

/-- Startup (main.ts lines 472-481): settings are loaded from the
persisted document, then the whole shortcut set is registered. The disk
field tracks the last document written by saveSettings, and startup never
writes one. -/
def startupState (env : ShortcutEnv) (doc : Option RawDoc) : MainState :=
  let s := loadSettings doc
  let st0 : MainState := { currentSettings := s, toggleRegistered := false
                         , registry := [], disk := none }
  (registerShortcuts env st0).1

/- ---------------------------------------------------------------
   Preview path (App.tsx doCapture lines 18-42, handleFileSelected
   lines 124-148; preload.ts sanitizeDataUrl lines 28-32)
   --------------------------------------------------------------- -/

/-- The preload bridge for sanitizeDataUrl: unwraps the handler response,
rethrowing resp.error (or the fixed fallback when that is empty or
absent) whenever ok is false or the dataUrl is missing or empty. -/
def sanitizeViaApi (p : ProcOutcome) : Except String String :=
  let res := sanitizeDataUrlHandler p
  match res.dataUrl with
  | some u => if res.ok && !(u = "") then .ok u else .error (jsOr (res.error.getD "") "Sanitize failed")
  | none => .error (jsOr (res.error.getD "") "Sanitize failed")

/-- What the renderer displays and warns after the sanitize attempt. -/
structure PreviewOut where
  img : Option String
  error : Option String
deriving DecidableEq, Repr

/-- The shared preview logic of doCapture and handleFileSelected
(App.tsx lines 22-29 and 135-142): start from the raw data URL, replace
it by the sanitized one on success; on failure keep the original and set
the visible error banner to the thrown message. -/
def previewSanitize (p : ProcOutcome) (dataUrl : String) : PreviewOut :=
  match sanitizeViaApi p with
  | .ok s => ⟨some s, none⟩
  | .error e => ⟨some dataUrl, some e⟩

/-- The process-wide settings value is only ever set at module
initialization (the defaultSettings literal, equal to loading no
document), at startup from the persisted document, or by a
setHotkeySettings call. -/
inductive ReachableSettings : HotkeySettings → Prop
  | startup (doc : Option RawDoc) : ReachableSettings (loadSettings doc)
  | setCall (inc : Incoming) : ReachableSettings (normalizeIncoming inc)

/- ---------------------------------------------------------------
   Shared helper lemmas
   --------------------------------------------------------------- -/

theorem jsOr_ne_empty (s fallback : String) (h : fallback ≠ "") : jsOr s fallback ≠ "" := by
  unfold jsOr
  split <;> simp_all

theorem normAccel_ne_empty (raw : Option String) : normAccel raw ≠ "" := by
  unfold normAccel
  exact jsOr_ne_empty _ _ (by decide)

theorem normAccel_trim_or_default (raw : Option String) :
    normAccel raw = "F8" ∨ ∃ r : String, normAccel raw = jsTrim r := by
  unfold normAccel jsOr
  split
  · left; rfl
  · right; exact ⟨raw.getD "", rfl⟩

theorem normAccel_empty_to_default (raw : Option String)
    (h : jsTrim (raw.getD "") = "") : normAccel raw = "F8" := by
  unfold normAccel jsOr
  simp [h]
  rfl

theorem acceleratorParts_shape (darwin : Bool) (baseKey : String) (mods : HotkeyModifiers) :
    ∃ mid : List String, acceleratorParts darwin baseKey mods = "Control" :: (mid ++ [baseKey]) := by
  rcases mods with ⟨s, a, c⟩
  cases darwin <;> cases s <;> cases a <;> cases c <;> exact ⟨_, rfl⟩

theorem acceleratorFor_shape (darwin : Bool) (baseKey : String) (mods : HotkeyModifiers) :
    ∃ t : String, acceleratorFor darwin baseKey mods = "Control+" ++ t := by
  obtain ⟨mid, hmid⟩ := acceleratorParts_shape darwin baseKey mods
  unfold acceleratorFor
  rw [hmid]
  cases mid with
  | nil => exact ⟨baseKey, rfl⟩
  | cons x xs => exact ⟨joinPlus (x :: (xs ++ [baseKey])), rfl⟩

theorem acceleratorFor_ne_short (darwin : Bool) (baseKey : String) (mods : HotkeyModifiers)
    (s : String) (hs : s.data.length < 8) : acceleratorFor darwin baseKey mods ≠ s := by
  obtain ⟨t, ht⟩ := acceleratorFor_shape darwin baseKey mods
  rw [ht]
  intro h
  have hd : ("Control+" ++ t).data = s.data := congrArg String.data h
  have hlen : ("Control+".data).length + t.data.length = s.data.length := by
    rw [← List.length_append, ← String.data_append, hd]
  have h8 : ("Control+".data).length = 8 := by decide
  omega

theorem copyImage_spec (p : ProcOutcome) (u : String) :
    (∃ e, sanitizeInMain p = .error e ∧ (copyImage p u).1.ok = false ∧
      (copyImage p u).2.clipboard = none) ∨
    (∃ s, sanitizeInMain p = .ok s ∧ (copyImage p u).1.ok = true ∧
      (copyImage p u).2.clipboard = some s) := by
  rcases hs : sanitizeInMain p with e | s
  · exact .inl ⟨e, rfl, by simp [copyImage, hs], by simp [copyImage, hs]⟩
  · exact .inr ⟨s, rfl, by simp [copyImage, hs], by simp [copyImage, hs]⟩

theorem saveImage_spec (decode : String → List Nat) (env : SaveEnv) (u : String) :
    ((saveImage decode env u).1.ok = false ∧ (saveImage decode env u).2.written = none) ∨
    (∃ s mime b64 filePath,
      sanitizeInMain env.proc = .ok s ∧ parseDataUrl s = some (mime, b64) ∧
      env.dialog = some filePath ∧ (saveImage decode env u).1.ok = true ∧
      (saveImage decode env u).2.written = some ⟨filePath, decode b64, epoch2000, 0o644⟩) := by
  by_cases hu : jsStartsWith u "data:image/"
  · rcases hs : sanitizeInMain env.proc with e | s
    · left; constructor <;> simp [saveImage, hu, hs]
    · rcases hp : parseDataUrl s with _ | ⟨mime, b64⟩
      · left; constructor <;> simp [saveImage, hu, hs, hp]
      · rcases hd : env.dialog with _ | filePath
        · left; constructor <;> simp [saveImage, hu, hs, hp, hd]
        · right
          exact ⟨s, mime, b64, filePath, rfl, hp, rfl,
            by simp [saveImage, hu, hs, hp, hd], by simp [saveImage, hu, hs, hp, hd]⟩
  · left; constructor <;> simp [saveImage, hu]

theorem saveImageZip_spec (decode : String → List Nat) (env : SaveEnv) (u : String) :
    ((saveImageZip decode env u).1.ok = false ∧ (saveImageZip decode env u).2.written = none) ∨
    (∃ s mime b64 filePath,
      sanitizeInMain env.proc = .ok s ∧ parseDataUrl s = some (mime, b64) ∧
      env.dialog = some filePath ∧ (saveImageZip decode env u).1.ok = true ∧
      (saveImageZip decode env u).2.written =
        some ⟨filePath, "img_" ++ env.rand ++ "." ++ extForMime (jsToLower mime),
              decode b64, epoch2000, epoch2000, 0o644⟩) := by
  by_cases hu : jsStartsWith u "data:image/"
  · rcases hs : sanitizeInMain env.proc with e | s
    · left; constructor <;> simp [saveImageZip, hu, hs]
    · rcases hp : parseDataUrl s with _ | ⟨mime, b64⟩
      · left; constructor <;> simp [saveImageZip, hu, hs, hp]
      · rcases hd : env.dialog with _ | filePath
        · left; constructor <;> simp [saveImageZip, hu, hs, hp, hd]
        · right
          exact ⟨s, mime, b64, filePath, rfl, hp, rfl,
            by simp [saveImageZip, hu, hs, hp, hd], by simp [saveImageZip, hu, hs, hp, hd]⟩
  · left; constructor <;> simp [saveImageZip, hu]

/-- C1: on a sanitize failure every export operation (clipboard copy,
file save, zip save) reports failure and performs no sink write; and
whenever a sink write happens, what the sink consumed is exactly the
sanitizer output: the clipboard receives the sanitized data URL itself,
and the file and zip sinks receive the decoding of the sanitized data
URL payload, never the raw input. -/
theorem export_no_leak (decode : String → List Nat) (p : ProcOutcome)
    (env : SaveEnv) (u : String) :
    (∀ e, sanitizeInMain p = .error e →
       (copyImage p u).1.ok = false ∧ (copyImage p u).2.clipboard = none) ∧
    (∀ e, sanitizeInMain env.proc = .error e →
       (saveImage decode env u).1.ok = false ∧ (saveImage decode env u).2.written = none ∧
       (saveImageZip decode env u).1.ok = false ∧ (saveImageZip decode env u).2.written = none) ∧
    (∀ s, (copyImage p u).2.clipboard = some s →
       sanitizeInMain p = .ok s ∧ (copyImage p u).1.ok = true) ∧
    (∀ fw, (saveImage decode env u).2.written = some fw →
       ∃ s mime b64, sanitizeInMain env.proc = .ok s ∧ parseDataUrl s = some (mime, b64) ∧
         fw.bytes = decode b64 ∧ (saveImage decode env u).1.ok = true) ∧
    (∀ zw, (saveImageZip decode env u).2.written = some zw →
       ∃ s mime b64, sanitizeInMain env.proc = .ok s ∧ parseDataUrl s = some (mime, b64) ∧
         zw.entryBytes = decode b64 ∧ (saveImageZip decode env u).1.ok = true) := by
  refine ⟨?_, ?_, ?_, ?_, ?_⟩
  · intro e he
    rcases copyImage_spec p u with ⟨e', _, h2, h3⟩ | ⟨s, h1, _, _⟩
    · exact ⟨h2, h3⟩
    · rw [he] at h1; cases h1
  · intro e he
    rcases saveImage_spec decode env u with ⟨h1, h2⟩ | ⟨s, _, _, _, hs, _⟩
    · rcases saveImageZip_spec decode env u with ⟨h3, h4⟩ | ⟨s, _, _, _, hs, _⟩
      · exact ⟨h1, h2, h3, h4⟩
      · rw [he] at hs; cases hs
    · rw [he] at hs; cases hs
  · intro s hclip
    rcases copyImage_spec p u with ⟨e', _, _, h3⟩ | ⟨s', h1, h2, h3⟩
    · rw [hclip] at h3; cases h3
    · rw [hclip] at h3
      obtain rfl : s' = s := by injection h3 with h; exact h.symm
      exact ⟨h1, h2⟩
  · intro fw hw
    rcases saveImage_spec decode env u with ⟨_, h2⟩ | ⟨s, mime, b64, filePath, hs, hp, _, hok, hwr⟩
    · rw [hw] at h2; cases h2
    · rw [hw] at hwr
      obtain rfl : fw = ⟨filePath, decode b64, epoch2000, 0o644⟩ := by
        injection hwr
      exact ⟨s, mime, b64, hs, hp, rfl, hok⟩
  · intro zw hw
    rcases saveImageZip_spec decode env u with ⟨_, h2⟩ | ⟨s, mime, b64, filePath, hs, hp, _, hok, hwr⟩
    · rw [hw] at h2; cases h2
    · rw [hw] at hwr
      obtain rfl : zw = ⟨filePath, "img_" ++ env.rand ++ "." ++ extForMime (jsToLower mime),
          decode b64, epoch2000, epoch2000, 0o644⟩ := by
        injection hwr
      exact ⟨s, mime, b64, hs, hp, rfl, hok⟩

theorem export_no_leak_witness :
    sanitizeInMain ⟨false, "", "data:image/png;base64,AAAA", ""⟩ = .ok "data:image/png;base64,AAAA" ∧
    (copyImage ⟨false, "", "data:image/png;base64,AAAA", ""⟩ "data:image/png;base64,RAWRAW").2.clipboard =
      some "data:image/png;base64,AAAA" ∧
    sanitizeInMain ⟨false, "", "data:image/png;base64,AAAA", ""⟩ = .ok "data:image/png;base64,AAAA" := by
  refine ⟨by decide, by decide, ?_⟩
  exact ((export_no_leak (fun s => s.data.map Char.toNat)
    ⟨false, "", "data:image/png;base64,AAAA", ""⟩
    ⟨⟨false, "", "data:image/png;base64,AAAA", ""⟩, some "/tmp/out.png", "abcd", 5⟩
    "data:image/png;base64,RAWRAW").2.2.1 "data:image/png;base64,AAAA" (by decide)).1

/-- C5: every successful saveImage and saveImageZip leaves the
destination file with modification time equal to the constant epoch
2000-01-01T00:00:00Z (never the wall-clock time) and permission bits
equal to the non-executable default 644 octal; two sequential saves with
different content both carry the constant epoch. -/
theorem save_normalizes_metadata (decode : String → List Nat)
    (env env' : SaveEnv) (u u' : String) :
    (∀ fw, (saveImage decode env u).2.written = some fw →
       fw.mtime = epoch2000 ∧ fw.mode = 0o644 ∧
       (env.now ≠ epoch2000 → fw.mtime ≠ env.now)) ∧
    (∀ zw, (saveImageZip decode env u).2.written = some zw →
       zw.mtime = epoch2000 ∧ zw.mode = 0o644 ∧ zw.entryMtime = epoch2000) ∧
    (∀ fw fw', (saveImage decode env u).2.written = some fw →
       (saveImage decode env' u').2.written = some fw' →
       fw.mtime = epoch2000 ∧ fw'.mtime = epoch2000) := by
  have hgen : ∀ (d : String → List Nat) (e : SaveEnv) (v : String) fw,
      (saveImage d e v).2.written = some fw → fw.mtime = epoch2000 ∧ fw.mode = 0o644 := by
    intro d e v fw hw
    rcases saveImage_spec d e v with ⟨_, h2⟩ | ⟨s, mime, b64, filePath, _, _, _, _, hwr⟩
    · rw [hw] at h2; cases h2
    · rw [hw] at hwr
      obtain rfl : fw = ⟨filePath, d b64, epoch2000, 0o644⟩ := by injection hwr
      exact ⟨rfl, rfl⟩
  refine ⟨?_, ?_, ?_⟩
  · intro fw hw
    obtain ⟨h1, h2⟩ := hgen decode env u fw hw
    exact ⟨h1, h2, fun hne => by rw [h1]; exact fun h => hne h.symm⟩
  · intro zw hw
    rcases saveImageZip_spec decode env u with ⟨_, h2⟩ | ⟨s, mime, b64, filePath, _, _, _, _, hwr⟩
    · rw [hw] at h2; cases h2
    · rw [hw] at hwr
      obtain rfl : zw = ⟨filePath, "img_" ++ env.rand ++ "." ++ extForMime (jsToLower mime),
          decode b64, epoch2000, epoch2000, 0o644⟩ := by injection hwr
      exact ⟨rfl, rfl, rfl⟩
  · intro fw fw' hw hw'
    exact ⟨(hgen decode env u fw hw).1, (hgen decode env' u' fw' hw').1⟩

theorem save_normalizes_metadata_witness :
    (saveImage (fun s => s.data.map Char.toNat)
        ⟨⟨false, "", "data:image/png;base64,AAAA", ""⟩, some "/tmp/a.png", "0a0a", 1700000000⟩
        "data:image/png;base64,AAAA").2.written =
      some ⟨"/tmp/a.png", "AAAA".data.map Char.toNat, epoch2000, 0o644⟩ ∧
    (⟨"/tmp/a.png", "AAAA".data.map Char.toNat, epoch2000, 0o644⟩ : FileWrite).mtime = epoch2000 := by
  refine ⟨by decide, ?_⟩
  exact ((save_normalizes_metadata (fun s => s.data.map Char.toNat)
    ⟨⟨false, "", "data:image/png;base64,AAAA", ""⟩, some "/tmp/a.png", "0a0a", 1700000000⟩
    ⟨⟨false, "", "data:image/png;base64,AAAA", ""⟩, some "/tmp/a.png", "0a0a", 1700000000⟩
    "data:image/png;base64,AAAA" "data:image/png;base64,AAAA").1
    ⟨"/tmp/a.png", "AAAA".data.map Char.toNat, epoch2000, 0o644⟩ (by decide)).1

/-- C2 counterexample: when the sanitizer process exits cleanly but
prints a string that does not begin with the image data-URL marker, the
failure message is the fixed string Invalid sanitizer output, not the
stderr diagnostic text, refuting the claim that every such failure
carries the diagnostic text verbatim. -/
theorem sanitize_diag_counterexample :
    sanitizeInMain ⟨false, "spawn message", "garbage output", "diagnostic text"⟩ =
      .error "Invalid sanitizer output" ∧
    ¬ ("Invalid sanitizer output" = "diagnostic text") := by
  exact ⟨by decide, by decide⟩

/-- C2 amended: every sanitize request invokes the sanitizer process
exactly once; the result is accepted only when the invocation succeeds
and the output is non-empty and begins with the image data-URL marker.
A failed invocation carries the stderr text verbatim when stderr is
non-empty and otherwise the invocation error message; an empty output and
a non-conforming output yield the fixed messages Sanitizer returned empty
output and Invalid sanitizer output rather than the diagnostic text. -/
theorem sanitize_contract_amended (p : ProcOutcome) :
    (sanitizeInMainRun p).calls = 1 ∧
    (∀ s, sanitizeInMain p = .ok s →
       p.err = false ∧ s = p.stdout ∧ s ≠ "" ∧ jsStartsWith s "data:image/" = true) ∧
    (p.err = true → p.stderr ≠ "" → sanitizeInMain p = .error p.stderr) ∧
    (p.err = true → p.stderr = "" → sanitizeInMain p = .error p.errMessage) ∧
    (p.err = false → p.stdout = "" → sanitizeInMain p = .error "Sanitizer returned empty output") ∧
    (p.err = false → p.stdout ≠ "" → jsStartsWith p.stdout "data:image/" = false →
       sanitizeInMain p = .error "Invalid sanitizer output") := by
  rcases p with ⟨err, em, so, se⟩
  cases err
  · by_cases h0 : so = ""
    · refine ⟨?_, ?_, ?_, ?_, ?_, ?_⟩ <;>
        simp [sanitizeInMain, sanitizeInMainRun, h0]
    · by_cases h1 : jsStartsWith so "data:image/"
      · refine ⟨?_, ?_, ?_, ?_, ?_, ?_⟩ <;>
          simp [sanitizeInMain, sanitizeInMainRun, h0, h1]
      · refine ⟨?_, ?_, ?_, ?_, ?_, ?_⟩ <;>
          simp [sanitizeInMain, sanitizeInMainRun, h0, h1]
  · by_cases h2 : se = ""
    · refine ⟨?_, ?_, ?_, ?_, ?_, ?_⟩ <;>
        simp [sanitizeInMain, sanitizeInMainRun, jsOr, h2]
    · refine ⟨?_, ?_, ?_, ?_, ?_, ?_⟩ <;>
        simp [sanitizeInMain, sanitizeInMainRun, jsOr, h2]

theorem sanitize_contract_amended_witness :
    sanitizeInMain ⟨true, "exit status 1", "", "metadata parser crashed"⟩ =
      .error "metadata parser crashed" := by
  exact (sanitize_contract_amended ⟨true, "exit status 1", "", "metadata parser crashed"⟩).2.2.1
    rfl (by decide)

theorem sanitizeViaApi_error_ne_empty (p : ProcOutcome) (e : String) :
    sanitizeViaApi p = .error e → e ≠ "" := by
  intro he
  simp only [sanitizeViaApi] at he
  cases h : (sanitizeDataUrlHandler p).dataUrl with
  | none =>
    simp only [h] at he
    injection he with h2
    rw [← h2]
    exact jsOr_ne_empty _ _ (by decide)
  | some u =>
    simp only [h] at he
    by_cases hb : ((sanitizeDataUrlHandler p).ok && !decide (u = "")) = true
    · rw [if_pos hb] at he; cases he
    · rw [if_neg hb] at he
      injection he with h2
      rw [← h2]
      exact jsOr_ne_empty _ _ (by decide)

/-- C7: on the preview path (after capture or upload), a sanitize failure
leaves the original unsanitized data URL as the displayed image and sets
the visible error banner to a non-empty warning message, while a sanitize
success displays the sanitized data URL with no warning; in contrast the
clipboard export path writes nothing at all on a sanitize failure. -/
theorem preview_falls_back_with_warning (p : ProcOutcome) (u : String) :
    (∀ e, sanitizeViaApi p = .error e →
       previewSanitize p u = ⟨some u, some e⟩ ∧ e ≠ "") ∧
    (∀ s, sanitizeViaApi p = .ok s → previewSanitize p u = ⟨some s, none⟩) ∧
    (∀ e, sanitizeInMain p = .error e →
       (copyImage p u).2.clipboard = none ∧ (copyImage p u).1.ok = false) := by
  refine ⟨?_, ?_, ?_⟩
  · intro e he
    exact ⟨by simp [previewSanitize, he], sanitizeViaApi_error_ne_empty p e he⟩
  · intro s hs
    simp [previewSanitize, hs]
  · intro e he
    rcases copyImage_spec p u with ⟨e', _, h2, h3⟩ | ⟨s, h1, _, _⟩
    · exact ⟨h3, h2⟩
    · rw [he] at h1; cases h1

theorem preview_falls_back_with_warning_witness :
    sanitizeViaApi ⟨false, "", "garbage output", ""⟩ = .error "Invalid sanitizer output" ∧
    previewSanitize ⟨false, "", "garbage output", ""⟩ "data:image/png;base64,ORIG" =
      ⟨some "data:image/png;base64,ORIG", some "Invalid sanitizer output"⟩ := by
  refine ⟨by decide, ?_⟩
  exact ((preview_falls_back_with_warning ⟨false, "", "garbage output", ""⟩
    "data:image/png;base64,ORIG").1 "Invalid sanitizer output" (by decide)).1

/-- C8: the accelerator builder is pure and deterministic — two calls on
identical input produce identical strings — and its token order is fixed:
the parts list is exactly platform-ctrl first, then platform-command when
applicable, then shift, then alt slash option, then the base key, so the
first token is always Control and the last is the base key. -/
theorem accelerator_builder_deterministic (darwin : Bool) (baseKey : String)
    (m m' : HotkeyModifiers) (h : m = m') :
    acceleratorFor darwin baseKey m = acceleratorFor darwin baseKey m' ∧
    acceleratorParts darwin baseKey m =
      ["Control"] ++ (if darwin && m.command then ["Command"] else []) ++
      (if m.shift then ["Shift"] else []) ++
      (if m.alt then [if darwin then "Option" else "Alt"] else []) ++ [baseKey] ∧
    (acceleratorParts darwin baseKey m).head? = some "Control" ∧
    (acceleratorParts darwin baseKey m).getLast? = some baseKey := by
  subst h
  refine ⟨rfl, ?_, ?_, ?_⟩ <;>
  · rcases m with ⟨s, a, c⟩
    cases darwin <;> cases s <;> cases a <;> cases c <;>
      simp [acceleratorParts, List.getLast?_concat]

theorem accelerator_builder_deterministic_witness :
    (⟨true, false, false⟩ : HotkeyModifiers) = ⟨true, false, false⟩ ∧
    acceleratorFor false "3" ⟨true, false, false⟩ = acceleratorFor false "3" ⟨true, false, false⟩ ∧
    acceleratorFor false "3" ⟨true, false, false⟩ = "Control+Shift+3" := by
  refine ⟨rfl, ?_, by decide⟩
  exact (accelerator_builder_deterministic false "3" ⟨true, false, false⟩ ⟨true, false, false⟩ rfl).1

/-- C9: with no persisted settings file (and equally for an unparseable
document or one with all fields missing) the loaded settings are the
built-in defaults, so after startup getHotkeySettings returns settings
whose six modifier flags are all false and whose toggle accelerator is
F8. -/
theorem missing_settings_fall_back_to_defaults (env : ShortcutEnv) :
    getHotkeySettings (startupState env none) = defaultSettings ∧
    loadSettings none = defaultSettings ∧
    loadSettings (some ⟨none, none, none⟩) = defaultSettings ∧
    defaultSettings.full.modifiers = ⟨false, false, false⟩ ∧
    defaultSettings.region.modifiers = ⟨false, false, false⟩ ∧
    defaultSettings.toggle.accelerator = "F8" := by
  refine ⟨?_, by decide, by decide, rfl, rfl, rfl⟩
  simp [getHotkeySettings, startupState, registerShortcuts, loadSettings]

/-- C10: every value the process-wide settings can ever hold (the initial
defaults, a startup load of any persisted document, or the normalized
form of any setSettings request) carries a non-empty toggle accelerator
that is either the default F8 or the trim of some string; and the shared
accelerator normalizer replaces an accelerator whose trim is empty with
the default F8, so getHotkeySettings can never return an empty toggle
accelerator. -/
theorem settings_always_normalized (s : HotkeySettings) (hs : ReachableSettings s) :
    s.toggle.accelerator ≠ "" ∧
    (s.toggle.accelerator = "F8" ∨ ∃ r : String, s.toggle.accelerator = jsTrim r) ∧
    (∀ raw : Option String, jsTrim (raw.getD "") = "" → normAccel raw = "F8") := by
  have base : ∀ raw : Option String,
      normAccel raw ≠ "" ∧ (normAccel raw = "F8" ∨ ∃ r : String, normAccel raw = jsTrim r) :=
    fun raw => ⟨normAccel_ne_empty raw, normAccel_trim_or_default raw⟩
  cases hs with
  | startup doc =>
    cases doc with
    | none =>
      exact ⟨by decide, .inl rfl, fun raw h => normAccel_empty_to_default raw h⟩
    | some d =>
      exact ⟨(base d.toggleAccel).1, (base d.toggleAccel).2,
        fun raw h => normAccel_empty_to_default raw h⟩
  | setCall inc =>
    exact ⟨(base inc.toggleAccel).1, (base inc.toggleAccel).2,
      fun raw h => normAccel_empty_to_default raw h⟩

theorem settings_always_normalized_witness :
    ReachableSettings defaultSettings ∧ defaultSettings.toggle.accelerator ≠ "" := by
  have h : ReachableSettings defaultSettings := by
    have := ReachableSettings.startup none
    simpa [loadSettings] using this
  exact ⟨h, (settings_always_normalized defaultSettings h).1⟩

theorem registerShortcuts_spec (env : ShortcutEnv) (st : MainState)
    (rA fA tA : String)
    (hrA : rA = acceleratorFor env.darwin "4" st.currentSettings.region.modifiers)
    (hfA : fA = acceleratorFor env.darwin "3" st.currentSettings.full.modifiers)
    (htA : tA = jsOr st.currentSettings.toggle.accelerator defaultSettings.toggle.accelerator) :
    (registerShortcuts env st).1.currentSettings = st.currentSettings ∧
    (registerShortcuts env st).1.disk = st.disk ∧
    (∀ a ∈ (registerShortcuts env st).1.registry, a = rA ∨ a = fA ∨ a = tA) ∧
    (env.canRegister tA = true → tA ≠ rA → tA ≠ fA →
       (registerShortcuts env st).1.toggleRegistered = true ∧
       tA ∈ (registerShortcuts env st).1.registry) ∧
    ((registerShortcuts env st).1.toggleRegistered = false →
       ∀ a ∈ (registerShortcuts env st).1.registry, a = rA ∨ a = fA) ∧
    (env.canRegister rA = false →
       ("Failed to register hotkey for region: " ++ rA) ∈ (registerShortcuts env st).2) ∧
    (env.canRegister fA = false →
       ("Failed to register hotkey for full: " ++ fA) ∈ (registerShortcuts env st).2) ∧
    (env.canRegister tA = false → (registerShortcuts env st).1.toggleRegistered = false) := by
  subst hrA hfA htA
  by_cases hR : env.canRegister (acceleratorFor env.darwin "4" st.currentSettings.region.modifiers) <;>
  by_cases hF : env.canRegister (acceleratorFor env.darwin "3" st.currentSettings.full.modifiers) <;>
  by_cases hT : env.canRegister
    (jsOr st.currentSettings.toggle.accelerator defaultSettings.toggle.accelerator) <;>
  by_cases hfr : acceleratorFor env.darwin "3" st.currentSettings.full.modifiers =
    acceleratorFor env.darwin "4" st.currentSettings.region.modifiers <;>
  by_cases htr : jsOr st.currentSettings.toggle.accelerator defaultSettings.toggle.accelerator =
    acceleratorFor env.darwin "4" st.currentSettings.region.modifiers <;>
  by_cases htf : jsOr st.currentSettings.toggle.accelerator defaultSettings.toggle.accelerator =
    acceleratorFor env.darwin "3" st.currentSettings.full.modifiers <;>
  simp_all [registerShortcuts]

/-- C3: setSettings applies the shortcut set as whole-set replacement:
the held settings and the persisted document are both replaced by the
normalized incoming settings, and the registration table afterwards
contains only accelerators built from the new settings; in the scenario
where the request carries toggle accelerator F9 and the OS grants it,
F9 is registered, F8 is no longer registered, and getSettings and the
persisted document both report F9. -/
theorem set_settings_whole_replacement (env : ShortcutEnv) (st : MainState)
    (inc : Incoming) (h9 : inc.toggleAccel = some "F9")
    (hc : env.canRegister "F9" = true) :
    (setHotkeySettings env st inc).1.currentSettings = normalizeIncoming inc ∧
    getHotkeySettings (setHotkeySettings env st inc).1 = normalizeIncoming inc ∧
    (normalizeIncoming inc).toggle.accelerator = "F9" ∧
    (setHotkeySettings env st inc).1.disk = some (normalizeIncoming inc) ∧
    "F9" ∈ (setHotkeySettings env st inc).1.registry ∧
    "F8" ∉ (setHotkeySettings env st inc).1.registry ∧
    (∀ a ∈ (setHotkeySettings env st inc).1.registry,
       a = acceleratorFor env.darwin "4" (normalizeIncoming inc).region.modifiers ∨
       a = acceleratorFor env.darwin "3" (normalizeIncoming inc).full.modifiers ∨
       a = "F9") := by
  have hnext : (normalizeIncoming inc).toggle.accelerator = "F9" := by
    show normAccel inc.toggleAccel = "F9"
    rw [h9]; decide
  have htA : jsOr (normalizeIncoming inc).toggle.accelerator
      defaultSettings.toggle.accelerator = "F9" := by
    rw [hnext]; decide
  obtain ⟨hcur, hdisk, hmem, hsucc, _, _, _, _⟩ :=
    registerShortcuts_spec env
      { st with currentSettings := normalizeIncoming inc, disk := some (normalizeIncoming inc) }
      (acceleratorFor env.darwin "4" (normalizeIncoming inc).region.modifiers)
      (acceleratorFor env.darwin "3" (normalizeIncoming inc).full.modifiers)
      "F9" rfl rfl htA.symm
  have hne4 : "F9" ≠ acceleratorFor env.darwin "4" (normalizeIncoming inc).region.modifiers :=
    fun h => acceleratorFor_ne_short env.darwin "4" (normalizeIncoming inc).region.modifiers
      "F9" (by decide) h.symm
  have hne3 : "F9" ≠ acceleratorFor env.darwin "3" (normalizeIncoming inc).full.modifiers :=
    fun h => acceleratorFor_ne_short env.darwin "3" (normalizeIncoming inc).full.modifiers
      "F9" (by decide) h.symm
  refine ⟨hcur, hcur, hnext, hdisk, (hsucc hc hne4 hne3).2, ?_, hmem⟩
  intro hmem8
  rcases hmem "F8" hmem8 with h | h | h
  · exact acceleratorFor_ne_short env.darwin "4" (normalizeIncoming inc).region.modifiers
      "F8" (by decide) h.symm
  · exact acceleratorFor_ne_short env.darwin "3" (normalizeIncoming inc).full.modifiers
      "F8" (by decide) h.symm
  · exact absurd h (by decide)

theorem set_settings_whole_replacement_witness :
    (⟨none, none, some "F9"⟩ : Incoming).toggleAccel = some "F9" ∧
    "F9" ∈ (setHotkeySettings ⟨false, fun _ => true⟩
      ⟨defaultSettings, true, ["F8"], none⟩ ⟨none, none, some "F9"⟩).1.registry ∧
    "F8" ∉ (setHotkeySettings ⟨false, fun _ => true⟩
      ⟨defaultSettings, true, ["F8"], none⟩ ⟨none, none, some "F9"⟩).1.registry := by
  refine ⟨rfl, ?_, ?_⟩
  · exact (set_settings_whole_replacement ⟨false, fun _ => true⟩
      ⟨defaultSettings, true, ["F8"], none⟩ ⟨none, none, some "F9"⟩ rfl rfl).2.2.2.2.1
  · exact (set_settings_whole_replacement ⟨false, fun _ => true⟩
      ⟨defaultSettings, true, ["F8"], none⟩ ⟨none, none, some "F9"⟩ rfl rfl).2.2.2.2.2.1

/-- C6: every setSettings call reports overall success regardless of
registration failures; a refused full or region binding only surfaces as
a console warning, while the toggle outcome is reported to the caller as
the boolean registered field; and when the toggle registration is
refused the toggle is simply left unregistered — the registry holds at
most the new full and region accelerators, with no rollback to any
previous toggle accelerator. -/
theorem toggle_conflict_no_rollback (env : ShortcutEnv) (st : MainState) (inc : Incoming) :
    (setHotkeySettings env st inc).2.1.ok = true ∧
    (setHotkeySettings env st inc).2.1.registered =
      (setHotkeySettings env st inc).1.toggleRegistered ∧
    (env.canRegister (acceleratorFor env.darwin "4" (normalizeIncoming inc).region.modifiers) = false →
       ("Failed to register hotkey for region: " ++
          acceleratorFor env.darwin "4" (normalizeIncoming inc).region.modifiers) ∈
         (setHotkeySettings env st inc).2.2) ∧
    (env.canRegister (acceleratorFor env.darwin "3" (normalizeIncoming inc).full.modifiers) = false →
       ("Failed to register hotkey for full: " ++
          acceleratorFor env.darwin "3" (normalizeIncoming inc).full.modifiers) ∈
         (setHotkeySettings env st inc).2.2) ∧
    (env.canRegister (jsOr (normalizeIncoming inc).toggle.accelerator
        defaultSettings.toggle.accelerator) = false →
       (setHotkeySettings env st inc).2.1.registered = false ∧
       ∀ a ∈ (setHotkeySettings env st inc).1.registry,
         a = acceleratorFor env.darwin "4" (normalizeIncoming inc).region.modifiers ∨
         a = acceleratorFor env.darwin "3" (normalizeIncoming inc).full.modifiers) := by
  obtain ⟨_, _, _, _, hfail, hwarnR, hwarnF, hregF⟩ :=
    registerShortcuts_spec env
      { st with currentSettings := normalizeIncoming inc, disk := some (normalizeIncoming inc) }
      (acceleratorFor env.darwin "4" (normalizeIncoming inc).region.modifiers)
      (acceleratorFor env.darwin "3" (normalizeIncoming inc).full.modifiers)
      (jsOr (normalizeIncoming inc).toggle.accelerator defaultSettings.toggle.accelerator)
      rfl rfl rfl
  refine ⟨rfl, rfl, hwarnR, hwarnF, ?_⟩
  intro hT
  exact ⟨hregF hT, hfail (hregF hT)⟩

theorem toggle_conflict_no_rollback_witness :
    ((fun a => !(a = "F8" : Bool)) "F8" = false) ∧
    (setHotkeySettings ⟨false, fun a => !(a = "F8" : Bool)⟩
      ⟨defaultSettings, true, ["F8"], none⟩ ⟨none, none, none⟩).2.1.registered = false := by
  refine ⟨by decide, ?_⟩
  exact ((toggle_conflict_no_rollback ⟨false, fun a => !(a = "F8" : Bool)⟩
    ⟨defaultSettings, true, ["F8"], none⟩ ⟨none, none, none⟩).2.2.2.2 (by decide)).1

/-- C4 counterexample: when the region-capture tool invocation fails with
a non-cancellation error after having written the temporary output file,
the handler takes the catch path, the unlink on the success path never
runs, and the temporary file still exists afterward — refuting the claim
that the file is released on every exit path. -/
theorem region_tmp_release_counterexample :
    (captureRegion (fun s => s)
      ⟨true, some "screencapture failed badly", some "PNGDATA", ""⟩).resp.ok = false ∧
    (captureRegion (fun s => s)
      ⟨true, some "screencapture failed badly", some "PNGDATA", ""⟩).tmpFileExists = true := by
  exact ⟨by decide, by decide⟩

/-- C4 amended: the temporary output file is deleted on the successful
capture path; when the tool exits with a recognized cancellation signal
and has written no output, the call resolves to the friendly canceled
response, the renderer surfaces no error, and no temporary file exists
afterward; the file can survive only on a failed invocation that had
already written it — release is success-path-only, not guaranteed on
every exit path. -/
theorem region_capture_cancellation (b64 : String → String) (env : RegionEnv) :
    (env.darwin = true → env.spawnErrMsg = none → ∀ bytes, env.toolWrote = some bytes →
       (captureRegion b64 env).resp.ok = true ∧
       (captureRegion b64 env).tmpFileExists = false) ∧
    (∀ m, env.darwin = true → env.spawnErrMsg = some m → cancelPattern m = true →
       env.toolWrote = none →
       (captureRegion b64 env).resp = ⟨false, none, some "Selection canceled"⟩ ∧
       surfacedRegionError (captureRegion b64 env) = none ∧
       (captureRegion b64 env).tmpFileExists = false) ∧
    ((captureRegion b64 env).tmpFileExists = true →
       ∃ m, env.spawnErrMsg = some m ∧ env.toolWrote.isSome = true) := by
  refine ⟨?_, ?_, ?_⟩
  · intro hd hs bytes hw
    constructor <;> simp [captureRegion, hd, hs, hw]
  · intro m hd hs hc hw
    have hresp : captureRegion b64 env = ⟨⟨false, none, some "Selection canceled"⟩, false⟩ := by
      simp [captureRegion, hd, hs, hc, hw]
    refine ⟨by rw [hresp], ?_, by rw [hresp]⟩
    rw [hresp]
    decide
  · intro hex
    cases hd : env.darwin with
    | false => rw [show (captureRegion b64 env).tmpFileExists = false by
        simp [captureRegion, hd]] at hex; cases hex
    | true =>
      cases hs : env.spawnErrMsg with
      | none =>
        cases hw : env.toolWrote with
        | some bytes =>
          rw [show (captureRegion b64 env).tmpFileExists = false by
            simp [captureRegion, hd, hs, hw]] at hex
          cases hex
        | none =>
          by_cases hc : cancelPattern env.readErrMsg = true
          · rw [show (captureRegion b64 env).tmpFileExists = false by
              simp [captureRegion, hd, hs, hw, hc]] at hex
            cases hex
          · rw [show (captureRegion b64 env).tmpFileExists = false by
              simp [captureRegion, hd, hs, hw, hc]] at hex
            cases hex
      | some m =>
        refine ⟨m, rfl, ?_⟩
        by_cases hc : cancelPattern m = true
        · rw [show (captureRegion b64 env).tmpFileExists = env.toolWrote.isSome by
            simp [captureRegion, hd, hs, hc]] at hex
          exact hex
        · rw [show (captureRegion b64 env).tmpFileExists = env.toolWrote.isSome by
            simp [captureRegion, hd, hs, hc]] at hex
          exact hex

theorem region_capture_cancellation_witness :
    cancelPattern "Selection was cancelled by the user" = true ∧
    (captureRegion (fun s => s)
        ⟨true, some "Selection was cancelled by the user", none, ""⟩).resp =
      ⟨false, none, some "Selection canceled"⟩ := by
  refine ⟨by decide, ?_⟩
  exact ((region_capture_cancellation (fun s => s)
    ⟨true, some "Selection was cancelled by the user", none, ""⟩).2.1
    "Selection was cancelled by the user" rfl rfl (by decide) rfl).1

end SanImg
